import Mathlib

/-!
Shallow embedding of
src/correctness-experiments/first-attempts/load-rematerialization-in-c/ComplicatedReaderWriterTest.c
and verification of the specification claims about it.

Modelling conventions:
* C `unsigned int` values are modelled as `Nat`; every bit operation used by
  the program (`&&&`, `|||`, `^^^`, shifts) keeps results below 2^32 when its
  inputs are, so no explicit `% 2^32` is needed inside `nextInt` except for the
  seed conversion at initialization.
* the global arrays `vals`, `lastValsScan`, `changedTimes`, `wasRead`,
  `wasWritten` are modelled as total functions on `Nat`; the program only ever
  touches indices `< VALS_SIZE` of them.
* `fprintf(stderr, "\nUB was caught!\n"); exit(0);` is modelled as an
  `Except.error` carrying the diagnostic line and the exit code; the error
  short-circuits the enclosing loops, modelling process termination.
* the reject-and-resample `while` loops get an explicit fuel argument and
  return `none` on fuel exhaustion (the C loop simply keeps drawing).
* `usleep`, semaphores and CPU affinity have no effect on the program state
  modelled here and are omitted; sequential executions of the two tasks are
  modelled by running their state transformers one after the other.
* signed `int` overflow in the `savedRead` accumulator is undefined behavior
  in C; it is modelled as two's-complement wraparound (`wrap32`).  No claim
  depends on the accumulator's numeric value.
-/

namespace RWTest

/-! Compile-time constants of the C file. -/

def MT_IA : Nat := 397
def MT_LEN : Nat := 624

def TEST_ITERS : Nat := 1000
def MAIN_RANDOM_START_SEED : Nat := 65
def READ_RANDOM_START_SEED : Nat := 6565
def WRITE_RANDOM_START_SEED : Nat := 651

def VALS_SIZE : Nat := 100000
def READER_ITERS : Nat := 50000
def WRITER_ITERS : Nat := 50000
def CHECK_EACH_ITER : Nat := 50
def CHECK_FIRST_VALS : Nat := VALS_SIZE

/-! The Mersenne-Twister state (`struct MersenneTwister` / `MyRandom`). -/

structure MyRandom where
  m_buffer : Nat → Nat
  m_index : Nat

/-- Index `i` of `nextInt`: the current cursor (read and written back). -/
def mtI (rng : MyRandom) : Nat := rng.m_index

/-- Index `i2` of `nextInt`: `m_index + 1`, wrapped to `0` at `MT_LEN`. -/
def mtI2 (rng : MyRandom) : Nat :=
  if rng.m_index + 1 ≥ MT_LEN then 0 else rng.m_index + 1

/-- Index `j` of `nextInt`: `m_index + MT_IA`, wrapped by subtracting `MT_LEN`. -/
def mtJ (rng : MyRandom) : Nat :=
  if rng.m_index + MT_IA ≥ MT_LEN then rng.m_index + MT_IA - MT_LEN
  else rng.m_index + MT_IA

/-- The C function `nextInt`: twist two neighbouring words with the word at
offset `MT_IA`, store the raw word back at the cursor, advance the cursor with
wraparound, then temper (swizzle) the raw word and return it. -/
def nextInt (rng : MyRandom) : Nat × MyRandom :=
  let i := mtI rng
  let i2 := mtI2 rng
  let j := mtJ rng
  let s := (rng.m_buffer i &&& 0x80000000) ||| (rng.m_buffer i2 &&& 0x7fffffff)
  let r := rng.m_buffer j ^^^ (s >>> 1) ^^^ ((s &&& 1) * 0x9908B0DF)
  let r1 := r ^^^ (r >>> 11)
  let r2 := r1 ^^^ ((r1 <<< 7) &&& 0x9d2c5680)
  let r3 := r2 ^^^ ((r2 <<< 15) &&& 0xefc60000)
  let r4 := r3 ^^^ (r3 >>> 18)
  (r4, MyRandom.mk (Function.update rng.m_buffer i r) i2)

/-- Iterate `nextInt` `n` times, keeping only the state (the init loop of
`initMyRandom` discards the drawn values). -/
def mtIterate : Nat → MyRandom → MyRandom
  | 0, r => r
  | n + 1, r => mtIterate n (nextInt r).2

/-- The C function `initMyRandom`: fill the buffer with the seed (converted to
`unsigned int`), set the cursor to `0`, then run the generator `MT_LEN * 100`
times. -/
def initMyRandom (seed : Nat) : MyRandom :=
  mtIterate (MT_LEN * 100) (MyRandom.mk (fun _ => seed % 4294967296) 0)

/-- The sequence of values drawn from a generator state: `mtStream rng k` is
the value returned by the `(k+1)`-st call to `nextInt`. -/
def mtStream (rng : MyRandom) : Nat → Nat
  | 0 => (nextInt rng).1
  | k + 1 => mtStream (nextInt rng).2 k

/-- The C function `getRandomIndex`: draw a value and reduce it mod
`VALS_SIZE`; the generator state advances. -/
def getRandomIndex (rng : MyRandom) : Nat × MyRandom :=
  let p := nextInt rng
  (p.1 % VALS_SIZE, p.2)

/-! The anomaly detector `checkVals`. -/

/-- Result of `exit` after a diagnostic on stderr. -/
structure ProcExit where
  stderrLine : String
  exitCode : Nat
  deriving DecidableEq

/-- The process exit performed by `checkVals` on detection:
`fprintf(stderr, "\nUB was caught!\n"); exit(0);` (the written line, without
the surrounding newline characters, and the exit status). -/
def ubExit : ProcExit := ProcExit.mk "UB was caught!" 0

/-- The detector's private state: the snapshot array `lastValsScan` and the
per-slot change counters `changedTimes`. -/
structure CheckState where
  lastValsScan : Nat → Nat
  changedTimes : Nat → Nat

/-- The loop body of `checkVals`, processing slots `i, i+1, ...` while `n`
slots remain: if the current value differs from the snapshot, increment the
slot's counter; if the counter now exceeds 1, print the diagnostic and exit
the process, otherwise record the new value in the snapshot and continue. -/
def checkValsAux (vals : Nat → Nat) : Nat → Nat → CheckState → Except ProcExit CheckState
  | _, 0, s => Except.ok s
  | i, n + 1, s =>
    if vals i = s.lastValsScan i then
      checkValsAux vals (i + 1) n s
    else if s.changedTimes i + 1 > 1 then
      Except.error ubExit
    else
      checkValsAux vals (i + 1) n
        (CheckState.mk (Function.update s.lastValsScan i (vals i))
          (Function.update s.changedTimes i (s.changedTimes i + 1)))

/-- The C function `checkVals`: scan the first `CHECK_FIRST_VALS` slots. -/
def checkVals (vals : Nat → Nat) (s : CheckState) : Except ProcExit CheckState :=
  checkValsAux vals 0 CHECK_FIRST_VALS s

/-- The tail of the `checkVals` scan that starts at slot `i`. -/
def checkFrom (vals : Nat → Nat) (i : Nat) (s : CheckState) : Except ProcExit CheckState :=
  checkValsAux vals i (CHECK_FIRST_VALS - i) s

/-! The global mutable state of the program. -/

/-- The global arrays and the accumulator: `vals`, `lastValsScan`,
`changedTimes`, `wasRead`, `wasWritten`, `savedRead`. -/
structure GState where
  vals : Nat → Nat
  lastValsScan : Nat → Nat
  changedTimes : Nat → Nat
  wasRead : Nat → Bool
  wasWritten : Nat → Bool
  savedRead : Int

/-- Conversion of a stored 32-bit word to a C `int` (two's complement). -/
def toInt32 (n : Nat) : Int :=
  if n % 4294967296 < 2147483648 then (n % 4294967296 : Nat)
  else (n % 4294967296 : Nat) - 4294967296

/-- Two's-complement wraparound of C `int` arithmetic (signed overflow is UB
in C; the accumulator's value is never used by a claim). -/
def wrap32 (x : Int) : Int := (x + 2147483648) % 4294967296 - 2147483648

/-- The loop in `clearState`: store one fresh draw per slot, walking the slots
`start, start+1, ...` for `n` steps and threading the generator state. -/
def fillVals : MyRandom → Nat → Nat → (Nat → Nat) → (Nat → Nat) × MyRandom
  | rng, _, 0, v => (v, rng)
  | rng, start, n + 1, v =>
    fillVals (nextInt rng).2 (start + 1) n (Function.update v start (nextInt rng).1)

/-- The C function `clearState`: regenerate all of `vals` from a fresh
generator seeded with `MAIN_RANDOM_START_SEED + iter`.  Nothing else in the
global state is touched. -/
def clearState (iter : Nat) (g : GState) : GState :=
  { g with vals := (fillVals (initMyRandom (MAIN_RANDOM_START_SEED + iter)) 0 VALS_SIZE g.vals).1 }

/-- The preparation phase of `doReads` (runs inside the reader task, before
`sem_wait`): for every slot below `VALS_SIZE` clear `wasRead`, snapshot `vals`
into `lastValsScan` and zero `changedTimes`; reset `savedRead`. -/
def readerPrepare (g : GState) : GState :=
  { g with
    wasRead := fun i => if i < VALS_SIZE then false else g.wasRead i
    lastValsScan := fun i => if i < VALS_SIZE then g.vals i else g.lastValsScan i
    changedTimes := fun i => if i < VALS_SIZE then 0 else g.changedTimes i
    savedRead := 0 }

/-- The preparation phase of `doWrites`: clear `wasWritten` below `VALS_SIZE`. -/
def writerPrepare (g : GState) : GState :=
  { g with wasWritten := fun i => if i < VALS_SIZE then false else g.wasWritten i }

/-- The reject-and-resample index selection shared by both tasks: draw an
index, and while its flag is set draw again.  `fuel` bounds the number of
draws; the C loop just keeps drawing. -/
def sampleFresh (flags : Nat → Bool) (rng : MyRandom) : Nat → Option (Nat × MyRandom)
  | 0 => none
  | fuel + 1 =>
    if flags (getRandomIndex rng).1 then sampleFresh flags (getRandomIndex rng).2 fuel
    else some (getRandomIndex rng)

/-- One iteration `i` of the reader's act loop: select a fresh index, mark it,
read `vals` there, fold the value into `savedRead`, and every
`CHECK_EACH_ITER` iterations run the detector (whose fatal exit becomes an
`Except.error`).  The trailing `usleep` has no modelled effect. -/
def readerIter (fuel i : Nat) (g : GState) (rng : MyRandom) :
    Option (Except ProcExit (GState × MyRandom)) :=
  match sampleFresh g.wasRead rng fuel with
  | none => none
  | some (idx, rng1) =>
    let g1 : GState := { g with wasRead := Function.update g.wasRead idx true }
    let r : Int := toInt32 (g1.vals idx)
    let g2 : GState := { g1 with savedRead := wrap32 ((r + r - 1) + (g1.savedRead - 1 + r) * r) }
    if i % CHECK_EACH_ITER = 0 then
      match checkVals g2.vals (CheckState.mk g2.lastValsScan g2.changedTimes) with
      | Except.error e => some (Except.error e)
      | Except.ok cs =>
        some (Except.ok ({ g2 with lastValsScan := cs.lastValsScan, changedTimes := cs.changedTimes }, rng1))
    else
      some (Except.ok (g2, rng1))

/-- The reader's act loop, starting at iteration `i` with `n` iterations left.
A detector exit short-circuits the loop, modelling process termination. -/
def readerLoop (fuel : Nat) : Nat → Nat → GState → MyRandom → Option (Except ProcExit (GState × MyRandom))
  | _, 0, g, rng => some (Except.ok (g, rng))
  | i, n + 1, g, rng =>
    match readerIter fuel i g rng with
    | none => none
    | some (Except.error e) => some (Except.error e)
    | some (Except.ok (g1, rng1)) => readerLoop fuel (i + 1) n g1 rng1

/-- The C function `doReads` run to completion on its own (prepare, seed the
reader generator, then the act loop). -/
def doReads (iter fuel : Nat) (g : GState) : Option (Except ProcExit (GState × MyRandom)) :=
  readerLoop fuel 0 READER_ITERS (readerPrepare g) (initMyRandom (READ_RANDOM_START_SEED + iter))

/-- One iteration of the writer's act loop: select a fresh index, mark it and
overwrite `vals` there with a fresh draw. -/
def writerIter (fuel : Nat) (g : GState) (rng : MyRandom) : Option (GState × MyRandom) :=
  match sampleFresh g.wasWritten rng fuel with
  | none => none
  | some (idx, rng1) =>
    let p := nextInt rng1
    some ({ g with
            wasWritten := Function.update g.wasWritten idx true
            vals := Function.update g.vals idx p.1 }, p.2)

/-- The writer's act loop with `n` iterations left. -/
def writerLoop (fuel : Nat) : Nat → GState → MyRandom → Option (GState × MyRandom)
  | 0, g, rng => some (g, rng)
  | n + 1, g, rng =>
    match writerIter fuel g rng with
    | none => none
    | some (g1, rng1) => writerLoop fuel n g1 rng1

/-- The C function `doWrites` run to completion on its own. -/
def doWrites (iter fuel : Nat) (g : GState) : Option (GState × MyRandom) :=
  writerLoop fuel WRITER_ITERS (writerPrepare g) (initMyRandom (WRITE_RANDOM_START_SEED + iter))

/-- Number of set flags among the array's slots (cardinality of a touched-flag
set). -/
def countFlags (f : Nat → Bool) : Nat :=
  ((Finset.range VALS_SIZE).filter (fun i => f i = true)).card

/-! Spec-side rendering of the generator step (claim C6), to be compared with
`nextInt` as translated from the source. -/

/-- Combination of two buffer slots described by the spec: the sign bit of the
cursor word with the low bits of the following word (wraparound at `MT_LEN`). -/
def specS (rng : MyRandom) : Nat :=
  (rng.m_buffer rng.m_index &&& 0x80000000) |||
  (rng.m_buffer ((rng.m_index + 1) % MT_LEN) &&& 0x7fffffff)

/-- The raw word produced by the twist step, per the spec's description. -/
def specRaw (rng : MyRandom) : Nat :=
  rng.m_buffer ((rng.m_index + MT_IA) % MT_LEN) ^^^ (specS rng >>> 1) ^^^
    ((specS rng &&& 1) * 0x9908B0DF)

/-- The tempering pipeline in the order the spec lists it: XOR with
right-shift 11, XOR with left-shift 7 AND 0x9d2c5680, XOR with left-shift 15
AND 0xefc60000, XOR with right-shift 18. -/
def specTemper (r : Nat) : Nat :=
  let r1 := r ^^^ (r >>> 11)
  let r2 := r1 ^^^ ((r1 <<< 7) &&& 0x9d2c5680)
  let r3 := r2 ^^^ ((r2 <<< 15) &&& 0xefc60000)
  r3 ^^^ (r3 >>> 18)

/-! Concrete sample states, used to instantiate theorems with hypotheses. -/

/-- A concrete generator state. -/
def rng0 : MyRandom := MyRandom.mk (fun _ => 0) 0

/-- A concrete all-clear flag array. -/
def flags0 : Nat → Bool := fun _ => false

/-- A concrete global state. -/
def g0 : GState := GState.mk (fun _ => 7) (fun _ => 7) (fun _ => 0) (fun _ => false) (fun _ => false) 0

/-- A concrete global state with stale bookkeeping left over in every slot. -/
def gDirty : GState := GState.mk (fun _ => 7) (fun _ => 9) (fun _ => 5) (fun _ => true) (fun _ => true) 3

/-- A concrete shared array for detector tests. -/
def vals0 : Nat → Nat := fun _ => 1

/-- A concrete detector state whose slot 0 already changed once. -/
def sC1 : CheckState := CheckState.mk (fun _ => 0) (fun _ => 1)

/-! Basic lemmas about the detector loop. -/

theorem checkValsAux_zero (vals : Nat → Nat) (i : Nat) (s : CheckState) :
    checkValsAux vals i 0 s = Except.ok s := rfl

theorem checkValsAux_succ (vals : Nat → Nat) (i n : Nat) (s : CheckState) :
    checkValsAux vals i (n + 1) s =
      if vals i = s.lastValsScan i then
        checkValsAux vals (i + 1) n s
      else if s.changedTimes i + 1 > 1 then
        Except.error ubExit
      else
        checkValsAux vals (i + 1) n
          (CheckState.mk (Function.update s.lastValsScan i (vals i))
            (Function.update s.changedTimes i (s.changedTimes i + 1))) := rfl

/-- Slots on which the array agrees with the snapshot are skipped without any
state change. -/
theorem checkValsAux_skip (vals : Nat → Nat) :
    ∀ (k i m : Nat) (s : CheckState),
      (∀ j, i ≤ j → j < i + k → vals j = s.lastValsScan j) →
      checkValsAux vals i (k + m) s = checkValsAux vals (i + k) m s := by
  intro k
  induction k with
  | zero => intro i m s _; simp
  | succ k ih =>
    intro i m s h
    have h0 : vals i = s.lastValsScan i := h i le_rfl (by omega)
    have hk : k + 1 + m = (k + m) + 1 := by omega
    rw [hk, checkValsAux_succ, if_pos h0]
    have := ih (i + 1) m s (fun j hj1 hj2 => h j (by omega) (by omega))
    rw [this]
    congr 1
    omega

/-- When the whole scanned window agrees with the snapshot, `checkVals` is a
no-op that returns `ok` with the state unchanged. -/
theorem checkVals_noop (vals : Nat → Nat) (s : CheckState)
    (h : ∀ j, j < CHECK_FIRST_VALS → vals j = s.lastValsScan j) :
    checkVals vals s = Except.ok s := by
  unfold checkVals
  have := checkValsAux_skip vals CHECK_FIRST_VALS 0 0 s
    (fun j hj1 hj2 => h j (by omega))
  simpa using this

/-- C1: for every invocation of the anomaly check and every slot `i` among the
first `CHECK_FIRST_VALS` slots: if the current value equals the snapshot the
scan moves on unchanged; if it differs, the slot's change counter is
incremented, and if it thereby exceeds 1 the check returns the fatal exit
(the line "UB was caught!" on stderr, process exit code 0), otherwise the
snapshot at `i` is updated to the new value and the scan continues with the
next slot.  `checkVals` itself is the scan started at slot 0. -/
theorem checkVals_slot_step (vals : Nat → Nat) (s : CheckState) (i : Nat)
    (hi : i < CHECK_FIRST_VALS) :
    (vals i = s.lastValsScan i → checkFrom vals i s = checkFrom vals (i + 1) s) ∧
    (vals i ≠ s.lastValsScan i → s.changedTimes i + 1 > 1 →
      checkFrom vals i s = Except.error ubExit) ∧
    (vals i ≠ s.lastValsScan i → ¬ s.changedTimes i + 1 > 1 →
      checkFrom vals i s = checkFrom vals (i + 1)
        (CheckState.mk (Function.update s.lastValsScan i (vals i))
          (Function.update s.changedTimes i (s.changedTimes i + 1)))) ∧
    ubExit.stderrLine = "UB was caught!" ∧ ubExit.exitCode = 0 ∧
    checkVals vals s = checkFrom vals 0 s := by
  have hsplit : CHECK_FIRST_VALS - i = (CHECK_FIRST_VALS - (i + 1)) + 1 := by
    unfold CHECK_FIRST_VALS VALS_SIZE at *
    omega
  unfold checkFrom
  rw [hsplit, checkValsAux_succ]
  refine ⟨fun h => by rw [if_pos h], fun h1 h2 => by rw [if_neg h1, if_pos h2],
    fun h1 h2 => by rw [if_neg h1, if_neg h2], rfl, rfl, ?_⟩
  simp [checkVals, checkFrom]

/-- C1 witness: at slot 0 with a differing value and a counter already at 1,
the check returns the fatal exit. -/
theorem checkVals_slot_step_witness : checkFrom vals0 0 sC1 = Except.error ubExit :=
  (checkVals_slot_step vals0 sC1 0 (by decide)).2.1 (by decide) (by decide)

/-- C2: start from a state where the snapshot equals the shared array and all
change counters are 0.  Overwrite slot `i` with a value `B` different from the
original `vals i`, run the check once: it completes normally, leaving the
counter of slot `i` at 1 and the snapshot updated to `B`.  Restore slot `i` to
its original value and run the check again: the counter of slot `i` is pushed
past 1 and the fatal detection path (diagnostic plus process exit) is taken. -/
theorem detector_catches_injected_anomaly (vals ct : Nat → Nat) (i B : Nat)
    (hct : ∀ j, ct j = 0) (hi : i < CHECK_FIRST_VALS) (hB : B ≠ vals i) :
    checkVals (Function.update vals i B) (CheckState.mk vals ct) =
        Except.ok (CheckState.mk (Function.update vals i B) (Function.update ct i 1)) ∧
    Function.update ct i 1 i = 1 ∧
    checkVals (Function.update (Function.update vals i B) i (vals i))
        (CheckState.mk (Function.update vals i B) (Function.update ct i 1)) =
      Except.error ubExit := by
  have hre : Function.update (Function.update vals i B) i (vals i) = vals := by
    rw [Function.update_idem, Function.update_eq_self]
  have e1 : CHECK_FIRST_VALS = i + ((CHECK_FIRST_VALS - i - 1) + 1) := by omega
  refine ⟨?_, by simp, ?_⟩
  · unfold checkVals
    rw [e1]
    have hs1 := checkValsAux_skip (Function.update vals i B) i 0
      ((CHECK_FIRST_VALS - i - 1) + 1) (CheckState.mk vals ct)
      (fun j hj1 hj2 => Function.update_noteq (show j ≠ i by omega) B vals)
    rw [hs1]
    simp only [Nat.zero_add]
    rw [checkValsAux_succ]
    rw [if_neg (show ¬ (Function.update vals i B i = (CheckState.mk vals ct).lastValsScan i) by
      simp only [Function.update_same]; exact hB)]
    rw [if_neg (show ¬ ((CheckState.mk vals ct).changedTimes i + 1 > 1) by
      simp [hct i])]
    have hstate : CheckState.mk (Function.update (CheckState.mk vals ct).lastValsScan i
          (Function.update vals i B i))
        (Function.update (CheckState.mk vals ct).changedTimes i
          ((CheckState.mk vals ct).changedTimes i + 1)) =
        CheckState.mk (Function.update vals i B) (Function.update ct i 1) := by
      simp only [Function.update_same, hct i]
    rw [hstate]
    have hs2 := checkValsAux_skip (Function.update vals i B) (CHECK_FIRST_VALS - i - 1) (i + 1) 0
      (CheckState.mk (Function.update vals i B) (Function.update ct i 1))
      (fun j hj1 hj2 => rfl)
    simpa using hs2
  · rw [hre]
    unfold checkVals
    rw [e1]
    have hs1 := checkValsAux_skip vals i 0 ((CHECK_FIRST_VALS - i - 1) + 1)
      (CheckState.mk (Function.update vals i B) (Function.update ct i 1))
      (fun j hj1 hj2 =>
        (Function.update_noteq (show j ≠ i by omega) B vals).symm)
    rw [hs1]
    simp only [Nat.zero_add]
    rw [checkValsAux_succ]
    rw [if_neg (show ¬ (vals i =
        (CheckState.mk (Function.update vals i B) (Function.update ct i 1)).lastValsScan i) by
      simp only [Function.update_same]; exact fun h => hB h.symm)]
    rw [if_pos (show (CheckState.mk (Function.update vals i B)
        (Function.update ct i 1)).changedTimes i + 1 > 1 by simp)]

/-- C2 witness: array constantly 7, counters 0, slot 0 overwritten with 9 and
restored; the first check passes and the second takes the fatal path. -/
theorem detector_catches_injected_anomaly_witness :
    checkVals (Function.update vals0 0 9) (CheckState.mk vals0 (fun _ => 0)) =
        Except.ok (CheckState.mk (Function.update vals0 0 9) (Function.update (fun _ => 0) 0 1)) ∧
    Function.update (fun _ => 0) 0 1 0 = 1 ∧
    checkVals (Function.update (Function.update vals0 0 9) 0 (vals0 0))
        (CheckState.mk (Function.update vals0 0 9) (Function.update (fun _ => 0) 0 1)) =
      Except.error ubExit :=
  detector_catches_injected_anomaly vals0 (fun _ => 0) 0 9 (fun _ => rfl) (by decide) (by decide)

/-! The PRNG claims. -/

/-- C5: the generator is a pure function of its seed; two instances
initialized with the same seed produce identical draw sequences, in
particular on the first 10,000 draws. -/
theorem prng_deterministic (S : Nat) (r1 r2 : MyRandom)
    (h1 : r1 = initMyRandom S) (h2 : r2 = initMyRandom S) (k : Nat) (_hk : k < 10000) :
    mtStream r1 k = mtStream r2 k := by
  rw [h1, h2]

/-- C5 witness: seed 0, draw number 3. -/
theorem prng_deterministic_witness :
    3 < 10000 ∧ mtStream (initMyRandom 0) 3 = mtStream (initMyRandom 0) 3 :=
  ⟨by decide, prng_deterministic 0 (initMyRandom 0) (initMyRandom 0) rfl rfl 3 (by decide)⟩

/-- C6: on any in-range cursor, a `nextInt` call produces the raw word from
the twist of the buffer (as `specRaw`), writes it back at the cursor,
advances the cursor by one with wraparound at `MT_LEN`, and returns the raw
word tempered by the four shift/XOR/mask steps, in order (`specTemper`). -/
theorem nextInt_twist_temper (rng : MyRandom) (h : rng.m_index < MT_LEN) :
    nextInt rng = (specTemper (specRaw rng),
      MyRandom.mk (Function.update rng.m_buffer rng.m_index (specRaw rng))
        ((rng.m_index + 1) % MT_LEN)) := by
  have h' : rng.m_index < 624 := h
  have hI2 : mtI2 rng = (rng.m_index + 1) % MT_LEN := by
    show (if rng.m_index + 1 ≥ 624 then 0 else rng.m_index + 1) = (rng.m_index + 1) % 624
    split <;> omega
  have hJ : mtJ rng = (rng.m_index + MT_IA) % MT_LEN := by
    show (if rng.m_index + 397 ≥ 624 then rng.m_index + 397 - 624 else rng.m_index + 397) =
      (rng.m_index + 397) % 624
    split <;> omega
  simp only [nextInt, specTemper, specRaw, specS, mtI, hI2, hJ]

/-- C6 witness: the characterization applied at a concrete generator state. -/
theorem nextInt_twist_temper_witness :
    nextInt rng0 = (specTemper (specRaw rng0),
      MyRandom.mk (Function.update rng0.m_buffer rng0.m_index (specRaw rng0))
        ((rng0.m_index + 1) % MT_LEN)) :=
  nextInt_twist_temper rng0 (by decide)

/-- The drawn index is the drawn word reduced modulo the array size, hence in
bounds. -/
theorem getRandomIndex_lt (rng : MyRandom) : (getRandomIndex rng).1 < VALS_SIZE :=
  Nat.mod_lt _ (by decide)

/-- A successful reject-and-resample selection returns an index whose flag is
clear and which is in bounds. -/
theorem sampleFresh_some (flags : Nat → Bool) :
    ∀ (fuel : Nat) (rng : MyRandom) (idx : Nat) (rng1 : MyRandom),
      sampleFresh flags rng fuel = some (idx, rng1) →
      flags idx = false ∧ idx < VALS_SIZE := by
  intro fuel
  induction fuel with
  | zero =>
    intro rng idx rng1 h
    exact absurd h (by simp [sampleFresh])
  | succ fuel ih =>
    intro rng idx rng1 h
    unfold sampleFresh at h
    split at h
    · exact ih (getRandomIndex rng).2 idx rng1 h
    · rename_i hflag
      have hpair : getRandomIndex rng = (idx, rng1) := by
        injection h
      have hidx : idx = (getRandomIndex rng).1 := by rw [hpair]
      constructor
      · rw [hidx]
        exact Bool.not_eq_true _ |>.mp hflag
      · rw [hidx]
        exact getRandomIndex_lt rng

/-- C9: every index used to access the arrays comes from `getRandomIndex`,
which returns a drawn word modulo `VALS_SIZE`; it is therefore below
`VALS_SIZE`, and so is every index produced by the tasks' reject-and-resample
selection loops. -/
theorem random_index_in_bounds (rng : MyRandom) :
    (getRandomIndex rng).1 = (nextInt rng).1 % VALS_SIZE ∧
    (getRandomIndex rng).1 < VALS_SIZE ∧
    (∀ (flags : Nat → Bool) (fuel idx : Nat) (rng1 : MyRandom),
      sampleFresh flags rng fuel = some (idx, rng1) → idx < VALS_SIZE) :=
  ⟨rfl, getRandomIndex_lt rng,
   fun flags fuel idx rng1 h => (sampleFresh_some flags fuel rng idx rng1 h).2⟩

/-- C9 witness: a concrete generator state and a concrete selection. -/
theorem random_index_in_bounds_witness :
    (getRandomIndex rng0).1 = (nextInt rng0).1 % VALS_SIZE ∧
    (getRandomIndex rng0).1 < VALS_SIZE ∧
    ((sampleFresh flags0 rng0 1).getD (0, rng0)).1 < VALS_SIZE :=
  ⟨(random_index_in_bounds rng0).1, (random_index_in_bounds rng0).2.1,
   (random_index_in_bounds rng0).2.2 flags0 1
     ((sampleFresh flags0 rng0 1).getD (0, rng0)).1
     ((sampleFresh flags0 rng0 1).getD (0, rng0)).2 rfl⟩

/-- The cursor is below `MT_LEN` after every `nextInt` call, from any state. -/
theorem nextInt_index_lt (rng : MyRandom) : (nextInt rng).2.m_index < MT_LEN := by
  show (if rng.m_index + 1 ≥ 624 then 0 else rng.m_index + 1) < 624
  split <;> omega

/-- Iterating the generator preserves the cursor bound. -/
theorem mtIterate_index_lt :
    ∀ (n : Nat) (r : MyRandom), r.m_index < MT_LEN → (mtIterate n r).m_index < MT_LEN := by
  intro n
  induction n with
  | zero => intro r h; exact h
  | succ n ih => intro r _; exact ih (nextInt r).2 (nextInt_index_lt r)

/-- C10: the cursor invariant `m_index < MT_LEN` (the model's `m_index` is a
`Nat`, so `0 ≤ m_index` holds by construction) is established by
`initMyRandom` and preserved by every `nextInt` call, and under it the three
buffer positions `nextInt` reads (`i`, `i2`, `j`) and the position it writes
(`i`, the cursor) all lie within the 624-word buffer. -/
theorem mt_index_invariant :
    (∀ seed : Nat, (initMyRandom seed).m_index < MT_LEN) ∧
    (∀ rng : MyRandom, (nextInt rng).2.m_index < MT_LEN) ∧
    (∀ rng : MyRandom, rng.m_index < MT_LEN →
      mtI rng < MT_LEN ∧ mtI2 rng < MT_LEN ∧ mtJ rng < MT_LEN ∧ mtI rng = rng.m_index) := by
  refine ⟨fun seed => mtIterate_index_lt _ _ (show (0 : Nat) < MT_LEN by decide),
    nextInt_index_lt, fun rng h => ?_⟩
  have h' : rng.m_index < 624 := h
  refine ⟨h, ?_, ?_, rfl⟩
  · show (if rng.m_index + 1 ≥ 624 then 0 else rng.m_index + 1) < 624
    split <;> omega
  · show (if rng.m_index + 397 ≥ 624 then rng.m_index + 397 - 624 else rng.m_index + 397) < 624
    split <;> omega

/-- C10 witness: establishment at seed 65 and the access bounds at a concrete
state. -/
theorem mt_index_invariant_witness :
    (initMyRandom 65).m_index < MT_LEN ∧
    (nextInt rng0).2.m_index < MT_LEN ∧
    (mtI rng0 < MT_LEN ∧ mtI2 rng0 < MT_LEN ∧ mtJ rng0 < MT_LEN ∧ mtI rng0 = rng0.m_index) :=
  ⟨mt_index_invariant.1 65, mt_index_invariant.2.1 rng0, mt_index_invariant.2.2 rng0 (by decide)⟩

/-! The reset claims. -/

/-- Positions outside the filled window keep their previous value. -/
theorem fillVals_untouched :
    ∀ (n : Nat) (rng : MyRandom) (start : Nat) (v : Nat → Nat) (j : Nat),
      j < start ∨ start + n ≤ j → (fillVals rng start n v).1 j = v j := by
  intro n
  induction n with
  | zero => intro rng start v j _; rfl
  | succ n ih =>
    intro rng start v j hj
    show (fillVals (nextInt rng).2 (start + 1) n (Function.update v start (nextInt rng).1)).1 j = v j
    rw [ih (nextInt rng).2 (start + 1) (Function.update v start (nextInt rng).1) j (by omega)]
    exact Function.update_noteq (show j ≠ start by omega) _ v

/-- Positions inside the filled window hold the corresponding element of the
generator's draw sequence. -/
theorem fillVals_get :
    ∀ (n : Nat) (rng : MyRandom) (start : Nat) (v : Nat → Nat) (j : Nat),
      start ≤ j → j < start + n → (fillVals rng start n v).1 j = mtStream rng (j - start) := by
  intro n
  induction n with
  | zero => intro rng start v j h1 h2; omega
  | succ n ih =>
    intro rng start v j h1 h2
    show (fillVals (nextInt rng).2 (start + 1) n (Function.update v start (nextInt rng).1)).1 j =
      mtStream rng (j - start)
    rcases Nat.eq_or_lt_of_le h1 with heq | hlt
    · subst heq
      rw [fillVals_untouched n (nextInt rng).2 (start + 1)
        (Function.update v start (nextInt rng).1) start (by omega)]
      rw [Function.update_same, Nat.sub_self]
      rfl
    · rw [ih (nextInt rng).2 (start + 1) (Function.update v start (nextInt rng).1) j (by omega) (by omega)]
      have hk : j - start = (j - (start + 1)) + 1 := by omega
      rw [hk]
      rfl

/-- Unfolding of the array field after a reset. -/
theorem clearState_vals (iter : Nat) (g : GState) :
    (clearState iter g).vals =
      (fillVals (initMyRandom (MAIN_RANDOM_START_SEED + iter)) 0 VALS_SIZE g.vals).1 := by
  rw [clearState]

/-- A reset leaves every field other than `vals` unchanged. -/
theorem clearState_other_fields (iter : Nat) (g : GState) :
    (clearState iter g).changedTimes = g.changedTimes ∧
    (clearState iter g).lastValsScan = g.lastValsScan ∧
    (clearState iter g).wasRead = g.wasRead ∧
    (clearState iter g).wasWritten = g.wasWritten ∧
    (clearState iter g).savedRead = g.savedRead := by
  rw [clearState]
  exact ⟨rfl, rfl, rfl, rfl, rfl⟩

/-- C7: the reset routine is idempotent on the array contents; running
`clearState` twice with the same trial number yields exactly the same `vals`
as running it once (every slot is regenerated from the same trial-seeded draw
sequence, and slots outside the array window are never written). -/
theorem clearState_idempotent (iter : Nat) (g : GState) :
    (clearState iter (clearState iter g)).vals = (clearState iter g).vals := by
  funext j
  rw [clearState_vals iter (clearState iter g), clearState_vals iter g]
  by_cases hj : j < VALS_SIZE
  · rw [fillVals_get VALS_SIZE _ 0 _ j (Nat.zero_le j) (by omega),
      fillVals_get VALS_SIZE _ 0 _ j (Nat.zero_le j) (by omega)]
  · rw [fillVals_untouched VALS_SIZE _ 0 _ j (by omega)]

/-- C8 counterexample: the per-trial Resetting step (`clearState`, the only
state mutation the orchestrator performs before creating the worker tasks)
does not clear the bookkeeping arrays.  On a state with stale bookkeeping in
every slot, the snapshot, the change counters and both touched-flag arrays
are unchanged after `clearState`. -/
theorem clearState_leaves_bookkeeping :
    (clearState 0 gDirty).changedTimes 0 = 5 ∧ ¬ (clearState 0 gDirty).changedTimes 0 = 0 ∧
    (clearState 0 gDirty).lastValsScan 0 = 9 ∧
    (clearState 0 gDirty).wasRead 0 = true ∧
    (clearState 0 gDirty).wasWritten 0 = true :=
  ⟨rfl, by decide, rfl, rfl, rfl⟩

/-- C8 amended: the Resetting step regenerates the entire shared array from a
deterministic sequence seeded by the trial number and touches nothing else;
the bookkeeping arrays are cleared instead inside the worker tasks'
preparation phases (after the tasks are created, before the start gate is
released): the reader clears its touched flags, snapshots `vals` and zeroes
the change counters, and the writer clears its touched flags. -/
theorem reset_and_prepare_responsibilities (t j : Nat) (g : GState) (hj : j < VALS_SIZE) :
    (clearState t g).vals j = mtStream (initMyRandom (MAIN_RANDOM_START_SEED + t)) j ∧
    (clearState t g).changedTimes = g.changedTimes ∧
    (clearState t g).lastValsScan = g.lastValsScan ∧
    (clearState t g).wasRead = g.wasRead ∧
    (clearState t g).wasWritten = g.wasWritten ∧
    (readerPrepare g).wasRead j = false ∧
    (readerPrepare g).lastValsScan j = g.vals j ∧
    (readerPrepare g).changedTimes j = 0 ∧
    (writerPrepare g).wasWritten j = false := by
  refine ⟨?_, (clearState_other_fields t g).1, (clearState_other_fields t g).2.1,
    (clearState_other_fields t g).2.2.1, (clearState_other_fields t g).2.2.2.1,
    by simp [readerPrepare, hj], by simp [readerPrepare, hj],
    by simp [readerPrepare, hj], by simp [writerPrepare, hj]⟩
  rw [clearState_vals t g, fillVals_get VALS_SIZE _ 0 _ j (Nat.zero_le j) (by omega),
    Nat.sub_zero]

/-- C8 amended witness: trial 0, slot 0, on the stale state. -/
theorem reset_and_prepare_responsibilities_witness :
    (clearState 0 gDirty).vals 0 = mtStream (initMyRandom (MAIN_RANDOM_START_SEED + 0)) 0 ∧
    (clearState 0 gDirty).changedTimes = gDirty.changedTimes ∧
    (clearState 0 gDirty).lastValsScan = gDirty.lastValsScan ∧
    (clearState 0 gDirty).wasRead = gDirty.wasRead ∧
    (clearState 0 gDirty).wasWritten = gDirty.wasWritten ∧
    (readerPrepare gDirty).wasRead 0 = false ∧
    (readerPrepare gDirty).lastValsScan 0 = gDirty.vals 0 ∧
    (readerPrepare gDirty).changedTimes 0 = 0 ∧
    (writerPrepare gDirty).wasWritten 0 = false :=
  reset_and_prepare_responsibilities 0 0 gDirty (by decide)

/-! Counting touched flags. -/

/-- Marking a previously clear in-bounds flag grows the touched set by one. -/
theorem countFlags_update (f : Nat → Bool) (idx : Nat)
    (h1 : f idx = false) (h2 : idx < VALS_SIZE) :
    countFlags (Function.update f idx true) = countFlags f + 1 := by
  unfold countFlags
  have hset : (Finset.range VALS_SIZE).filter (fun i => Function.update f idx true i = true) =
      insert idx ((Finset.range VALS_SIZE).filter (fun i => f i = true)) := by
    ext a
    simp only [Finset.mem_filter, Finset.mem_insert, Finset.mem_range, Function.update_apply]
    constructor
    · rintro ⟨ha, hval⟩
      by_cases hai : a = idx
      · exact Or.inl hai
      · rw [if_neg hai] at hval
        exact Or.inr ⟨ha, hval⟩
    · rintro (hai | ⟨ha, hval⟩)
      · subst hai
        exact ⟨h2, by rw [if_pos rfl]⟩
      · refine ⟨ha, ?_⟩
        by_cases hai : a = idx
        · subst hai
          rw [if_pos rfl]
        · rw [if_neg hai]
          exact hval
  rw [hset, Finset.card_insert_of_not_mem (by
    rw [Finset.mem_filter]
    rintro ⟨-, hval⟩
    rw [h1] at hval
    exact Bool.false_ne_true hval)]

/-- The touched set never exceeds the array length. -/
theorem countFlags_le (f : Nat → Bool) : countFlags f ≤ VALS_SIZE := by
  unfold countFlags
  calc ((Finset.range VALS_SIZE).filter (fun i => f i = true)).card
      ≤ (Finset.range VALS_SIZE).card := Finset.card_filter_le _ _
    _ = VALS_SIZE := Finset.card_range _

/-- The reader's prepare phase leaves an empty touched set. -/
theorem countFlags_readerPrepare (g : GState) : countFlags (readerPrepare g).wasRead = 0 := by
  unfold countFlags
  rw [Finset.card_eq_zero, Finset.filter_eq_empty_iff]
  intro a ha
  simp [readerPrepare, Finset.mem_range.mp ha]

/-- The writer's prepare phase leaves an empty touched set. -/
theorem countFlags_writerPrepare (g : GState) : countFlags (writerPrepare g).wasWritten = 0 := by
  unfold countFlags
  rw [Finset.card_eq_zero, Finset.filter_eq_empty_iff]
  intro a ha
  simp [writerPrepare, Finset.mem_range.mp ha]

/-! Per-iteration characterizations of the two tasks. -/

/-- A successful reader iteration selected a fresh in-bounds index, marked it,
and did not write the shared array. -/
theorem readerIter_ok_fields (fuel i : Nat) (g : GState) (rng : MyRandom)
    (g1 : GState) (rng1 : MyRandom)
    (h : readerIter fuel i g rng = some (Except.ok (g1, rng1))) :
    ∃ idx, g.wasRead idx = false ∧ idx < VALS_SIZE ∧
      g1.wasRead = Function.update g.wasRead idx true ∧ g1.vals = g.vals := by
  simp only [readerIter] at h
  split at h
  · exact absurd h (by simp)
  · rename_i idx rng2 heq
    obtain ⟨hflag, hlt⟩ := sampleFresh_some g.wasRead fuel rng idx rng2 heq
    split at h
    · split at h
      · exact absurd h (by simp)
      · rename_i cs hcv
        simp only [Option.some.injEq, Except.ok.injEq, Prod.mk.injEq] at h
        exact ⟨idx, hflag, hlt, by rw [← h.1], by rw [← h.1]⟩
    · simp only [Option.some.injEq, Except.ok.injEq, Prod.mk.injEq] at h
      exact ⟨idx, hflag, hlt, by rw [← h.1], by rw [← h.1]⟩

/-- When the snapshot agrees with the shared array on the scanned window, a
reader iteration cannot take the fatal path, and it changes neither the
array, the snapshot, nor the counters. -/
theorem readerIter_snap (fuel i : Nat) (g : GState) (rng : MyRandom)
    (hs : ∀ j, j < CHECK_FIRST_VALS → g.vals j = g.lastValsScan j) :
    (∀ e, readerIter fuel i g rng ≠ some (Except.error e)) ∧
    (∀ g1 rng1, readerIter fuel i g rng = some (Except.ok (g1, rng1)) →
      g1.vals = g.vals ∧ g1.lastValsScan = g.lastValsScan ∧
      g1.changedTimes = g.changedTimes) := by
  have hnoop : checkVals g.vals (CheckState.mk g.lastValsScan g.changedTimes) =
      Except.ok (CheckState.mk g.lastValsScan g.changedTimes) :=
    checkVals_noop _ _ hs
  constructor
  · intro e h
    simp only [readerIter] at h
    split at h
    · exact absurd h (by simp)
    · split at h
      · split at h
        · rename_i e' hcv
          rw [hnoop] at hcv
          exact absurd hcv (by simp)
        · exact absurd h (by simp)
      · exact absurd h (by simp)
  · intro g1 rng1 h
    simp only [readerIter] at h
    split at h
    · exact absurd h (by simp)
    · rename_i idx rng2 heq
      split at h
      · split at h
        · exact absurd h (by simp)
        · rename_i cs hcv
          rw [hnoop] at hcv
          have hcs : cs = CheckState.mk g.lastValsScan g.changedTimes := by
            injection hcv with h'
            exact h'.symm
          simp only [Option.some.injEq, Except.ok.injEq, Prod.mk.injEq] at h
          exact ⟨by rw [← h.1], by rw [← h.1, hcs], by rw [← h.1, hcs]⟩
      · simp only [Option.some.injEq, Except.ok.injEq, Prod.mk.injEq] at h
        exact ⟨by rw [← h.1], by rw [← h.1], by rw [← h.1]⟩

/-- A successful writer iteration selected a fresh in-bounds index, marked it,
and touched neither the snapshot nor the counters nor the reader's flags. -/
theorem writerIter_ok_fields (fuel : Nat) (g : GState) (rng : MyRandom)
    (g1 : GState) (rng1 : MyRandom)
    (h : writerIter fuel g rng = some (g1, rng1)) :
    ∃ idx, g.wasWritten idx = false ∧ idx < VALS_SIZE ∧
      g1.wasWritten = Function.update g.wasWritten idx true ∧
      g1.lastValsScan = g.lastValsScan ∧ g1.changedTimes = g.changedTimes ∧
      g1.wasRead = g.wasRead := by
  simp only [writerIter] at h
  split at h
  · exact absurd h (by simp)
  · rename_i idx rng2 heq
    obtain ⟨hflag, hlt⟩ := sampleFresh_some g.wasWritten fuel rng idx rng2 heq
    simp only [Option.some.injEq, Prod.mk.injEq] at h
    exact ⟨idx, hflag, hlt, by rw [← h.1], by rw [← h.1], by rw [← h.1], by rw [← h.1]⟩

/-! Loop-level lemmas. -/

/-- As long as the snapshot agrees with the array, the reader's act loop never
takes the fatal path and never changes the array, the snapshot or the
counters. -/
theorem readerLoop_snap (fuel : Nat) :
    ∀ (n i : Nat) (g : GState) (rng : MyRandom),
      (∀ j, j < CHECK_FIRST_VALS → g.vals j = g.lastValsScan j) →
      (∀ e, readerLoop fuel i n g rng ≠ some (Except.error e)) ∧
      (∀ g1 rng1, readerLoop fuel i n g rng = some (Except.ok (g1, rng1)) →
        g1.vals = g.vals ∧ g1.lastValsScan = g.lastValsScan ∧
        g1.changedTimes = g.changedTimes) := by
  intro n
  induction n with
  | zero =>
    intro i g rng _
    constructor
    · intro e h
      exact absurd h (by simp [readerLoop])
    · intro g1 rng1 h
      simp only [readerLoop, Option.some.injEq, Except.ok.injEq, Prod.mk.injEq] at h
      exact ⟨by rw [← h.1], by rw [← h.1], by rw [← h.1]⟩
  | succ n ih =>
    intro i g rng hs
    have hiter := readerIter_snap fuel i g rng hs
    constructor
    · intro e h
      simp only [readerLoop] at h
      split at h
      · exact absurd h (by simp)
      · rename_i e' heq
        exact hiter.1 e' heq
      · rename_i g2 rng2 heq
        obtain ⟨hv, hl, hc⟩ := hiter.2 g2 rng2 heq
        have hs2 : ∀ j, j < CHECK_FIRST_VALS → g2.vals j = g2.lastValsScan j := by
          intro j hj
          rw [hv, hl]
          exact hs j hj
        exact (ih (i + 1) g2 rng2 hs2).1 e h
    · intro g1 rng1 h
      simp only [readerLoop] at h
      split at h
      · exact absurd h (by simp)
      · exact absurd h (by simp)
      · rename_i g2 rng2 heq
        obtain ⟨hv, hl, hc⟩ := hiter.2 g2 rng2 heq
        have hs2 : ∀ j, j < CHECK_FIRST_VALS → g2.vals j = g2.lastValsScan j := by
          intro j hj
          rw [hv, hl]
          exact hs j hj
        obtain ⟨hv', hl', hc'⟩ := (ih (i + 1) g2 rng2 hs2).2 g1 rng1 h
        exact ⟨by rw [hv', hv], by rw [hl', hl], by rw [hc', hc]⟩

/-- Each completed reader iteration grows the reader's touched set by exactly
one. -/
theorem readerLoop_card (fuel : Nat) :
    ∀ (n i : Nat) (g : GState) (rng : MyRandom) (g1 : GState) (rng1 : MyRandom),
      readerLoop fuel i n g rng = some (Except.ok (g1, rng1)) →
      countFlags g1.wasRead = countFlags g.wasRead + n := by
  intro n
  induction n with
  | zero =>
    intro i g rng g1 rng1 h
    simp only [readerLoop, Option.some.injEq, Except.ok.injEq, Prod.mk.injEq] at h
    rw [← h.1]
    omega
  | succ n ih =>
    intro i g rng g1 rng1 h
    simp only [readerLoop] at h
    split at h
    · exact absurd h (by simp)
    · exact absurd h (by simp)
    · rename_i g2 rng2 heq
      obtain ⟨idx, hflag, hlt, hmark, _⟩ := readerIter_ok_fields fuel i g rng g2 rng2 heq
      rw [ih (i + 1) g2 rng2 g1 rng1 h, hmark, countFlags_update g.wasRead idx hflag hlt]
      omega

/-- The writer's act loop preserves the snapshot and the counters, and each
completed iteration grows the writer's touched set by exactly one. -/
theorem writerLoop_fields (fuel : Nat) :
    ∀ (n : Nat) (g : GState) (rng : MyRandom) (g1 : GState) (rng1 : MyRandom),
      writerLoop fuel n g rng = some (g1, rng1) →
      g1.lastValsScan = g.lastValsScan ∧ g1.changedTimes = g.changedTimes ∧
      countFlags g1.wasWritten = countFlags g.wasWritten + n := by
  intro n
  induction n with
  | zero =>
    intro g rng g1 rng1 h
    simp only [writerLoop, Option.some.injEq, Prod.mk.injEq] at h
    exact ⟨by rw [← h.1], by rw [← h.1], by rw [← h.1]; omega⟩
  | succ n ih =>
    intro g rng g1 rng1 h
    simp only [writerLoop] at h
    split at h
    · exact absurd h (by simp)
    · rename_i g2 rng2 heq
      obtain ⟨idx, hflag, hlt, hmark, hl, hc, _⟩ := writerIter_ok_fields fuel g rng g2 rng2 heq
      obtain ⟨hl', hc', hcard'⟩ := ih g2 rng2 g1 rng1 h
      refine ⟨by rw [hl', hl], by rw [hc', hc], ?_⟩
      rw [hcard', hmark, countFlags_update g.wasWritten idx hflag hlt]
      omega

/-- The reader's prepare phase establishes agreement of snapshot and array on
the scanned window. -/
theorem readerPrepare_snap (g : GState) :
    ∀ j, j < CHECK_FIRST_VALS → (readerPrepare g).vals j = (readerPrepare g).lastValsScan j := by
  intro j hj
  have hj' : j < VALS_SIZE := hj
  simp [readerPrepare, hj']

/-- The reader's prepare phase zeroes the counters on the array window. -/
theorem readerPrepare_counters (g : GState) :
    ∀ j, j < VALS_SIZE → (readerPrepare g).changedTimes j = 0 := by
  intro j hj
  simp [readerPrepare, hj]

/-- The writer's prepare phase does not touch the counters. -/
theorem writerPrepare_counters (g : GState) :
    (writerPrepare g).changedTimes = g.changedTimes := by
  rw [writerPrepare]

/-- C3: when the writer task and the reader task run sequentially with no
overlap on the same trial state (whose counters, as anywhere in a live run,
are 0 or 1), then throughout the run — after any prefix of the writer's loop
and after any prefix of the reader's loop, in either order — every slot's
change counter is 0 or 1, and the detector's fatal branch is never reached
(the reader's loop never returns the fatal exit). -/
theorem sequential_run_never_triggers (g : GState) (rngR rngW : MyRandom) (fuel : Nat)
    (hInit : ∀ j, j < VALS_SIZE → g.changedTimes j = 0 ∨ g.changedTimes j = 1) :
    (∀ kW gW rngW1, writerLoop fuel kW (writerPrepare g) rngW = some (gW, rngW1) →
      ∀ j, j < VALS_SIZE → gW.changedTimes j = 0 ∨ gW.changedTimes j = 1) ∧
    (∀ kW gW rngW1, writerLoop fuel kW (writerPrepare g) rngW = some (gW, rngW1) →
      ∀ kR, (∀ e, readerLoop fuel 0 kR (readerPrepare gW) rngR ≠ some (Except.error e)) ∧
        (∀ gR rngR1, readerLoop fuel 0 kR (readerPrepare gW) rngR = some (Except.ok (gR, rngR1)) →
          ∀ j, j < VALS_SIZE → gR.changedTimes j = 0 ∨ gR.changedTimes j = 1)) ∧
    (∀ kR, (∀ e, readerLoop fuel 0 kR (readerPrepare g) rngR ≠ some (Except.error e)) ∧
      (∀ gR rngR1, readerLoop fuel 0 kR (readerPrepare g) rngR = some (Except.ok (gR, rngR1)) →
        (∀ j, j < VALS_SIZE → gR.changedTimes j = 0 ∨ gR.changedTimes j = 1) ∧
        (∀ kW gW rngW1, writerLoop fuel kW (writerPrepare gR) rngW = some (gW, rngW1) →
          ∀ j, j < VALS_SIZE → gW.changedTimes j = 0 ∨ gW.changedTimes j = 1))) := by
  refine ⟨?_, ?_, ?_⟩
  · intro kW gW rngW1 hW j hj
    obtain ⟨-, hc, -⟩ := writerLoop_fields fuel kW (writerPrepare g) rngW gW rngW1 hW
    rw [hc, writerPrepare_counters g]
    exact hInit j hj
  · intro kW gW rngW1 hW kR
    have h := readerLoop_snap fuel kR 0 (readerPrepare gW) rngR (readerPrepare_snap gW)
    refine ⟨h.1, fun gR rngR1 hR j hj => ?_⟩
    obtain ⟨-, -, hc⟩ := h.2 gR rngR1 hR
    rw [hc]
    exact Or.inl (readerPrepare_counters gW j hj)
  · intro kR
    have h := readerLoop_snap fuel kR 0 (readerPrepare g) rngR (readerPrepare_snap g)
    refine ⟨h.1, fun gR rngR1 hR => ?_⟩
    obtain ⟨-, -, hc⟩ := h.2 gR rngR1 hR
    constructor
    · intro j hj
      rw [hc]
      exact Or.inl (readerPrepare_counters g j hj)
    · intro kW gW rngW1 hW j hj
      obtain ⟨-, hc', -⟩ := writerLoop_fields fuel kW (writerPrepare gR) rngW gW rngW1 hW
      rw [hc', writerPrepare_counters gR, hc]
      exact Or.inl (readerPrepare_counters g j hj)

/-- C3 witness: the reader-first order on a concrete clean trial state, zero
iterations both sides, observed at slot 5. -/
theorem sequential_run_never_triggers_witness :
    (readerPrepare g0).changedTimes 5 = 0 ∨ (readerPrepare g0).changedTimes 5 = 1 :=
  (((sequential_run_never_triggers g0 rng0 rng0 1 (fun j _ => Or.inl rfl)).2.2 0).2
    (readerPrepare g0) rng0 rfl).1 5 (by decide)

/-- C4: within one trial no index is selected twice by the same role: the
reject-and-resample selection only ever returns an index whose touched flag
is still clear (so neither role reads or writes an index it already marked),
and at the end of any completed run of `n` iterations the touched-flag set of
the role has cardinality exactly `n`, which is at most the array length — so
the writer writes each slot at most once and performs at most `VALS_SIZE`
writes in a trial. -/
theorem sampling_without_replacement (fuel n : Nat) (g : GState) (rng : MyRandom) :
    (∀ (flags : Nat → Bool) (r : MyRandom) (f idx : Nat) (r1 : MyRandom),
      sampleFresh flags r f = some (idx, r1) → flags idx = false) ∧
    (∀ (g1 : GState) (rng1 : MyRandom),
      readerLoop fuel 0 n (readerPrepare g) rng = some (Except.ok (g1, rng1)) →
      countFlags g1.wasRead = n ∧ n ≤ VALS_SIZE) ∧
    (∀ (g1 : GState) (rng1 : MyRandom),
      writerLoop fuel n (writerPrepare g) rng = some (g1, rng1) →
      countFlags g1.wasWritten = n ∧ n ≤ VALS_SIZE) := by
  refine ⟨fun flags r f idx r1 h => (sampleFresh_some flags f r idx r1 h).1, ?_, ?_⟩
  · intro g1 rng1 h
    have hcard := readerLoop_card fuel n 0 (readerPrepare g) rng g1 rng1 h
    rw [countFlags_readerPrepare g] at hcard
    have hle := countFlags_le g1.wasRead
    omega
  · intro g1 rng1 h
    obtain ⟨-, -, hcard⟩ := writerLoop_fields fuel n (writerPrepare g) rng g1 rng1 h
    rw [countFlags_writerPrepare g] at hcard
    have hle := countFlags_le g1.wasWritten
    omega

/-- C4 witness: a concrete selection on the all-clear flag set and both loops
at zero iterations on a concrete state. -/
theorem sampling_without_replacement_witness :
    flags0 ((sampleFresh flags0 rng0 1).getD (0, rng0)).1 = false ∧
    countFlags (readerPrepare g0).wasRead = 0 ∧
    countFlags (writerPrepare g0).wasWritten = 0 ∧ (0 : Nat) ≤ VALS_SIZE :=
  ⟨(sampling_without_replacement 1 0 g0 rng0).1 flags0 rng0 1
      ((sampleFresh flags0 rng0 1).getD (0, rng0)).1
      ((sampleFresh flags0 rng0 1).getD (0, rng0)).2 rfl,
   ((sampling_without_replacement 1 0 g0 rng0).2.1 (readerPrepare g0) rng0 rfl).1,
   ((sampling_without_replacement 1 0 g0 rng0).2.2 (writerPrepare g0) rng0 rfl).1,
   ((sampling_without_replacement 1 0 g0 rng0).2.2 (writerPrepare g0) rng0 rfl).2⟩

end RWTest
